import Mathlib

/-!
Verification of the `tapa_fast_cosim` RTL-testbench generator
(`tapa_fast_cosim/main.py`) against its natural-language specification.

The development shallowly embeds the two text extractors
(`parse_register_addr` over the control-unit RTL comments, and
`parse_m_axi_interfaces` over the top-level RTL) and the testbench
assembler (`get_cosim_tb`).  Python strings are embedded as `List Char`;
the regular expressions of the source are embedded as hand-compiled
matchers with the same leftmost / greedy-with-backtracking semantics;
Python exceptions (`AssertionError`, `IndexError`, `AttributeError`,
`KeyError`, evaluation failures) become `Except` errors.
-/

/-- Python strings are embedded as lists of characters. -/
abbrev Str := List Char

/-! ## Generic string primitives (Python `startswith`, `in`, `strip`, `replace`) -/

/-- Boolean string-prefix test (Python `str.startswith`). -/
def isPrefixOfL : Str → Str → Bool
  | [], _ => true
  | _ :: _, [] => false
  | a :: as, b :: bs => a == b && isPrefixOfL as bs

/-- Contiguous-substring test: `containsSub needle hay` (Python `needle in hay`). -/
def containsSub (needle : Str) : Str → Bool
  | [] => isPrefixOfL needle []
  | c :: t => isPrefixOfL needle (c :: t) || containsSub needle t

/-- `containsS line needle` embeds Python `needle in line`. -/
def containsS (line needle : Str) : Bool := containsSub needle line

/-- Whitespace class of Python `str.strip` / regex `\s` (ASCII part). -/
def isPySpace (c : Char) : Bool :=
  c == ' ' || c == '\t' || c == '\n' || c == '\r' || c == Char.ofNat 11 || c == Char.ofNat 12

/-- Python `str.strip()`. -/
def pyStrip (s : Str) : Str :=
  ((s.dropWhile isPySpace).reverse.dropWhile isPySpace).reverse

/-- Word-character class of regex `\w` (ASCII part): letters, digits, underscore. -/
def isWordChar (c : Char) : Bool := c.isAlphanum || c == '_'

/-- Fuelled worker for `replaceAll`; the fuel only guards termination and is
ample at `s.length` because each step consumes at least one character. -/
def replaceAllF : Nat → Str → Str → Str → Str
  | 0, _, _, s => s
  | f + 1, pat, rep, s =>
    if isPrefixOfL pat s && !pat.isEmpty then
      rep ++ replaceAllF f pat rep (s.drop pat.length)
    else
      match s with
      | [] => []
      | c :: cs => c :: replaceAllF f pat rep cs

/-- Python `s.replace(pat, rep)` for a non-empty pattern: replace every
non-overlapping occurrence, scanning left to right. -/
def replaceAll (pat rep s : Str) : Str := replaceAllF s.length pat rep s

/-! ## Association lists (Python `dict` in insertion order) -/

/-- Lookup in an insertion-ordered association list (Python `d[k]` / `k in d`). -/
def listLookup {α β : Type} [DecidableEq α] : List (α × β) → α → Option β
  | [], _ => none
  | (k, v) :: d, x => if x = k then some v else listLookup d x

/-- Insert with override, keeping the first-insertion position of the key
(Python `d[k] = v`). -/
def insertOver {α β : Type} [DecidableEq α] : List (α × β) → α → β → List (α × β)
  | [], k, v => [(k, v)]
  | (k', v') :: d, k, v => if k' = k then (k', v) :: d else (k', v') :: insertOver d k v

/-- Build a dict from a pair list (Python dict comprehension: later pairs
override earlier values of the same key). -/
def buildDict {α β : Type} [DecidableEq α] (ps : List (α × β)) : List (α × β) :=
  ps.foldl (fun d p => insertOver d p.1 p.2) []

/-! ## Control-unit register-map extraction (`parse_register_addr`) -/

/-- Errors of `parse_register_addr`: the two `assert` statements and the
`[0]` index lookups of `_check_s_axi_control_format` (all three are
FormatMismatch per spec section 7), and the `AttributeError` raised when
`re.search` returns `None` and `.group` is taken on it. -/
inductive CtrlError : Type where
  | keywordAssert : CtrlError
  | indexError : CtrlError
  | fixedAssert : CtrlError
  | attributeError : CtrlError
deriving DecidableEq, Repr

/-- FormatMismatch classification of `CtrlError` (spec section 7: the
control-comment convention violations; the `AttributeError` of the data-line
pattern is an unhandled crash, not a FormatMismatch). -/
def isFormatMismatch : CtrlError → Bool
  | CtrlError.attributeError => false
  | _ => true

/-- The keyword groups of `_check_s_axi_control_format` (main.py lines 19-24). -/
def keyword_groups : List (List Str) :=
  [ ["0x00".toList, "Control signals".toList],
    ["0x04".toList, "Global Interrupt Enable Register".toList],
    ["0x08".toList, "IP Interrupt Enable Register".toList],
    ["0x0c".toList, "IP Interrupt Status Register".toList] ]

/-- The fixed control-bit annotations (main.py lines 29-35). -/
def fixed_addresses : List (Str × Str) :=
  [ ("- ap_start".toList, "bit 0".toList),
    ("- ap_done".toList, "bit 1".toList),
    ("- ap_idle".toList, "bit 2".toList),
    ("- ap_ready".toList, "bit 3".toList),
    ("- auto_restart".toList, "bit 7".toList) ]

/-- One line passes the keyword-group assertion (main.py line 27):
for every group, the line mentions some keyword iff it mentions all of them. -/
def checkKeywordLine (line : Str) : Bool :=
  keyword_groups.all fun g => (g.any fun k => containsS line k) == (g.all fun k => containsS line k)

/-- One line passes the fixed-address assertion (main.py line 39):
every fixed register name it mentions comes with its bit annotation. -/
def checkFixedLine (line : Str) : Bool :=
  fixed_addresses.all fun p => !containsS line p.1 || containsS line p.2

/-- Index of the first list element satisfying `p`
(Python `[i for i, e in enumerate(l) if p(e)][0]`; `none` is the IndexError). -/
def firstIdx {α : Type} (p : α → Bool) : List α → Option Nat
  | [] => none
  | a :: l => if p a then some 0 else (firstIdx p l).map (· + 1)

/-- Embedding of `_check_s_axi_control_format` (main.py lines 15-39). -/
def _check_s_axi_control_format (comments : List Str) : Except CtrlError Unit :=
  if comments.all checkKeywordLine then
    match firstIdx (fun l => containsS l "0x00".toList) comments,
          firstIdx (fun l => containsS l "0x04".toList) comments with
    | some beg, some en =>
      if ((comments.drop beg).take (en - beg)).all checkFixedLine then
        Except.ok ()
      else Except.error CtrlError.fixedAssert
    | _, _ => Except.error CtrlError.indexError
  else Except.error CtrlError.keywordAssert

/-- The comment lines retained from the control RTL file
(main.py line 47: `line.strip().startswith('//')`). -/
def commentsOf (lines : List Str) : List Str :=
  lines.filter fun l => isPrefixOfL "//".toList (pyStrip l)

/-- The filter of main.py line 52: `' 0x' in line and 'Data signal' in line`. -/
def lineFilter (line : Str) : Bool :=
  containsS line " 0x".toList && containsS line "Data signal".toList

/-- Anchored match of the regex `(0x\w+) : Data signal of (\w+)` at the start
of `s`, returning the two groups.  The greedy `\w+` is maximal-munch here
because its follower is a space, which is not a word character. -/
def matchDS (s : Str) : Option (Str × Str) :=
  if isPrefixOfL "0x".toList s then
    let r := s.drop 2
    let w1 := r.takeWhile isWordChar
    if w1 = [] then none
    else
      let r2 := r.dropWhile isWordChar
      if isPrefixOfL " : Data signal of ".toList r2 then
        let r3 := r2.drop 18
        let w2 := r3.takeWhile isWordChar
        if w2 = [] then none else some ('0' :: 'x' :: w1, w2)
      else none
  else none

/-- `re.search` for the data-signal pattern: leftmost match wins. -/
def searchDS : Str → Option (Str × Str)
  | [] => none
  | c :: t =>
    match matchDS (c :: t) with
    | some r => some r
    | none => searchDS t

/-- The hardware-literal prefix written by `addr.replace('0x', '\x27h')`:
an apostrophe followed by `h`. -/
def hLit : Str := [Char.ofNat 39, 'h']

/-- Address rewriting of main.py line 56. -/
def hRewrite (addr : Str) : Str := replaceAll "0x".toList hLit addr

/-- A register map: argument name to its ordered register-address list
(Python `defaultdict(list)` in insertion order). -/
abbrev RegMap := List (Str × List Str)

/-- `arg_to_reg_addrs[signal].append(addr)`: append to the entry of the key,
creating it at the end on first use. -/
def addEntry : RegMap → Str → Str → RegMap
  | [], k, v => [(k, [v])]
  | (k', vs) :: m, k, v =>
    if k' = k then (k', vs ++ [v]) :: m else (k', vs) :: addEntry m k v

/-- The per-line loop of `parse_register_addr` (main.py lines 51-56). -/
def regLoop : RegMap → List Str → Except CtrlError RegMap
  | m, [] => Except.ok m
  | m, line :: rest =>
    if lineFilter line then
      match searchDS line with
      | none => Except.error CtrlError.attributeError
      | some (addr, signal) => regLoop (addEntry m signal (hRewrite addr)) rest
    else regLoop m rest

/-- Embedding of `parse_register_addr` (main.py lines 42-58); the input is
the line list of the control RTL file. -/
def parse_register_addr (lines : List Str) : Except CtrlError RegMap :=
  let comments := commentsOf lines
  match _check_s_axi_control_format comments with
  | Except.error e => Except.error e
  | Except.ok _ => regLoop [] comments

/-! ## Top-level RTL interface extraction (`parse_m_axi_interfaces`) -/

/-- Errors of `parse_m_axi_interfaces`: the `KeyError` of the address-width
lookup (spec: MissingInterfaceError) and a width expression that does not
evaluate (spec: UnresolvedWidthError). -/
inductive AxiError : Type where
  | missingInterface : AxiError
  | unresolvedWidth : AxiError
deriving DecidableEq, Repr

/-- Modelled from the spec: the `AXI` record of `tapa_fast_cosim/common.py`
is absent from src/; spec section 3 defines AxiInterface as name,
dataWidthBits, addrWidthBits, in the argument order of the call
`AXI(m_axi, eval(data_width)+1, eval(addr_width)+1)` (main.py line 84). -/
structure AXI : Type where
  name : Str
  data_width : Int
  addr_width : Int
deriving DecidableEq, Repr

/-- Strip a given suffix from a word, returning the rest; used for the
regex tail `(\w+)_ARADDR`, whose greedy group must end exactly where the
literal suffix starts inside the maximal word run. -/
def dropSuffixL (w suf : Str) : Option Str :=
  if suf.length ≤ w.length then
    if w.drop (w.length - suf.length) = suf then some (w.take (w.length - suf.length))
    else none
  else none

/-- Anchored match of the regex tail `:\s*0\s*\]\s+m_axi_(\w+)_SIG\s*[;,]`
(for `SIG` = `ARADDR` or `WDATA`), returning the interface name group and
the rest of the text.  Each greedy `\s*`/`\s+` here is maximal-munch because
its follower is not a whitespace character; the greedy `(\w+)` must leave
exactly the literal `_SIG` at the end of the maximal word run, because the
character after any earlier split point is a word character while the
pattern demands whitespace, `;` or `,` there. -/
def tailAxi (sig : Str) (s : Str) : Option (Str × Str) :=
  match s with
  | ':' :: r =>
    match r.dropWhile isPySpace with
    | '0' :: r2 =>
      match r2.dropWhile isPySpace with
      | ']' :: r4 =>
        if r4.takeWhile isPySpace = [] then none
        else
          let r5 := r4.dropWhile isPySpace
          if isPrefixOfL "m_axi_".toList r5 then
            let r6 := r5.drop 6
            let w := r6.takeWhile isWordChar
            let r7 := r6.dropWhile isWordChar
            match dropSuffixL w ('_' :: sig) with
            | none => none
            | some nm =>
              if nm = [] then none
              else
                match r7.dropWhile isPySpace with
                | ';' :: r9 => some (nm, r9)
                | ',' :: r9 => some (nm, r9)
                | _ => none
          else none
      | _ => none
    | _ => none
  | _ => none

/-- Backtracking loop of the greedy `(.*)` group: try the split points of
the current line from the longest width prefix down, taking the first one
at which the regex tail matches. -/
def axiSplitLoop (sig : Str) (s3 : Str) : Nat → Option (Str × Str × Str)
  | 0 =>
    match tailAxi sig s3 with
    | some (nm, rest) => some ([], nm, rest)
    | none => none
  | k + 1 =>
    match tailAxi sig (s3.drop (k + 1)) with
    | some (nm, rest) => some (s3.take (k + 1), nm, rest)
    | none => axiSplitLoop sig s3 k

/-- Anchored match of `output\s+\[(.*):\s*0\s*\]\s+m_axi_(\w+)_SIG\s*[;,]`
at the start of `s`, returning the width group, name group and rest.
`(.*)` cannot cross a newline, so splits are tried inside the current line
only, longest first (greedy). -/
def matchAxiAt (sig : Str) (s : Str) : Option (Str × Str × Str) :=
  if isPrefixOfL "output".toList s then
    let s1 := s.drop 6
    if s1.takeWhile isPySpace = [] then none
    else
      match s1.dropWhile isPySpace with
      | '[' :: s3 => axiSplitLoop sig s3 (s3.takeWhile (fun c => !(c == '\n'))).length
      | _ => none
  else none

/-- `re.findall` scan for the interface patterns: try every position left to
right, and continue after the end of each match (non-overlapping).  The fuel
starts at the text length and strictly dominates the remaining length, since
every match consumes at least the literal `output`. -/
def scanA (sig : Str) : Nat → Str → List (Str × Str)
  | 0, _ => []
  | _ + 1, [] => []
  | f + 1, c :: cs =>
    match matchAxiAt sig (c :: cs) with
    | some (w, nm, rest) => (w, nm) :: scanA sig f rest
    | none => scanA sig f cs

/-- `re.findall(r'output\s+\[(.*):\s*0\s*\]\s+m_axi_(\w+)_SIG\s*[;,]', top_rtl)`
(main.py lines 67-68), returning (width-expression, interface-name) pairs. -/
def findallAxi (sig : Str) (rtl : Str) : List (Str × Str) := scanA sig rtl.length rtl

/-- Inner backtracking loop for the second `(\S+)` group of the parameter
regex: try value prefixes of the maximal non-space run, longest first,
each followed by `\s*;`. -/
def paramValLoop (run2 after2 : Str) : Nat → Option (Str × Str)
  | 0 => none
  | j + 1 =>
    match (run2.drop (j + 1) ++ after2).dropWhile isPySpace with
    | ';' :: rest => some (run2.take (j + 1), rest)
    | _ => paramValLoop run2 after2 j

/-- Match of the parameter-regex tail `\s*=\s+(\S+)\s*;` after the name group. -/
def paramAfterName (r : Str) : Option (Str × Str) :=
  match r.dropWhile isPySpace with
  | '=' :: r2 =>
    if r2.takeWhile isPySpace = [] then none
    else
      let r3 := r2.dropWhile isPySpace
      paramValLoop (r3.takeWhile fun c => !isPySpace c) (r3.dropWhile fun c => !isPySpace c)
        (r3.takeWhile fun c => !isPySpace c).length
  | _ => none

/-- Outer backtracking loop for the first `(\S+)` group of the parameter
regex: try name prefixes of the maximal non-space run, longest first. -/
def paramNameLoop (run1 after1 : Str) : Nat → Option (Str × Str × Str)
  | 0 => none
  | k + 1 =>
    match paramAfterName (run1.drop (k + 1) ++ after1) with
    | some (v, rest) => some (run1.take (k + 1), v, rest)
    | none => paramNameLoop run1 after1 k

/-- Anchored match of `parameter\s+(\S+)\s*=\s+(\S+)\s*;` at the start of `s`,
returning name group, value group and rest. -/
def matchParamAt (s : Str) : Option (Str × Str × Str) :=
  if isPrefixOfL "parameter".toList s then
    let s1 := s.drop 9
    if s1.takeWhile isPySpace = [] then none
    else
      let s2 := s1.dropWhile isPySpace
      paramNameLoop (s2.takeWhile fun c => !isPySpace c) (s2.dropWhile fun c => !isPySpace c)
        (s2.takeWhile fun c => !isPySpace c).length
  else none

/-- `re.findall` scan for the parameter pattern (non-overlapping, left to
right); fuelled like `scanA`. -/
def scanP : Nat → Str → List (Str × Str)
  | 0, _ => []
  | _ + 1, [] => []
  | f + 1, c :: cs =>
    match matchParamAt (c :: cs) with
    | some (nm, v, rest) => (nm, v) :: scanP f rest
    | none => scanP f cs

/-- `re.findall(r'parameter\s+(\S+)\s*=\s+(\S+)\s*;', top_rtl)` (main.py line 71). -/
def findallParam (rtl : Str) : List (Str × Str) := scanP rtl.length rtl

/-! ## Width-expression evaluation and parameter substitution -/

/-- Numeric value of a non-empty decimal digit string. -/
def digitsToNat (ds : Str) : Nat := ds.foldl (fun a c => a * 10 + (c.toNat - 48)) 0

/-- Skip spaces inside an arithmetic expression. -/
def skipSp (s : Str) : Str := s.dropWhile isPySpace

/-- Atom of the width-expression grammar: a decimal integer literal. -/
def parseNumA (s : Str) : Option (Int × Str) :=
  let s' := skipSp s
  let ds := s'.takeWhile Char.isDigit
  if ds = [] then none else some ((digitsToNat ds : Int), s'.drop ds.length)

/-- Left-associative chain of `*` over atoms (fuelled). -/
def parseTLoop : Nat → Int → Str → Option (Int × Str)
  | 0, _, _ => none
  | f + 1, v, s =>
    match skipSp s with
    | '*' :: r =>
      match parseNumA r with
      | some (w, r') => parseTLoop f (v * w) r'
      | none => none
    | _ => some (v, s)

/-- A term: atom (`*` atom)*. -/
def parseT (f : Nat) (s : Str) : Option (Int × Str) :=
  match parseNumA s with
  | some (v, r) => parseTLoop f v r
  | none => none

/-- Left-associative chain of `+`/`-` over terms (fuelled). -/
def parseELoop : Nat → Int → Str → Option (Int × Str)
  | 0, _, _ => none
  | f + 1, v, s =>
    match skipSp s with
    | '+' :: r =>
      match parseT f r with
      | some (w, r') => parseELoop f (v + w) r'
      | none => none
    | '-' :: r =>
      match parseT f r with
      | some (w, r') => parseELoop f (v - w) r'
      | none => none
    | _ => some (v, s)

/-- An expression: term ((`+` or `-`) term)*. -/
def parseE (f : Nat) (s : Str) : Option (Int × Str) :=
  match parseT f s with
  | some (v, r) => parseELoop f v r
  | none => none

/-- Modelled from the spec: main.py line 84 evaluates the substituted width
expression with Python `eval`, which is outside a shallow embedding; spec
sections 3 and 9 require the expression to reduce as a constant
integer-arithmetic expression and mandate a restricted evaluator.  The model
evaluates decimal literals combined with `+`, `-`, `*` and spaces, and
returns `none` (UnresolvedWidthError) on anything else.  One deviation from
CPython is visible: `eval` rejects non-canonical integer literals with
leading zeros (`007`), which this evaluator accepts, so the general theorems
below restrict digit strings to canonical literals. -/
def evalExpr (s : Str) : Option Int :=
  match parseE (s.length + 1) s with
  | some (v, r) => if skipSp r = [] then some v else none
  | none => none

/-- The substitution loop of main.py lines 80-82: textually replace every
parameter name by its value, in dict insertion order. -/
def substParams (ps : List (Str × Str)) (s : Str) : Str :=
  ps.foldl (fun t p => replaceAll p.1 p.2 t) s

/-- The per-data-bus loop of main.py lines 76-84: look up the address-width
expression of the interface name (`KeyError` = MissingInterfaceError),
substitute the parameters into both width expressions, evaluate them, and
add one to each bound. -/
def buildAxiList :
    List (Str × Str) → List (Str × Str) → List (Str × Str) → Except AxiError (List AXI)
  | [], _, _ => Except.ok []
  | (data_width, m_axi) :: rest, addrTab, paramTab =>
    match listLookup addrTab m_axi with
    | none => Except.error AxiError.missingInterface
    | some addr_width =>
      match evalExpr (substParams paramTab data_width),
            evalExpr (substParams paramTab addr_width) with
      | some d, some a =>
        (buildAxiList rest addrTab paramTab).map fun l => { name := m_axi, data_width := d + 1, addr_width := a + 1 } :: l
      | _, _ => Except.error AxiError.unresolvedWidth

/-- The ARADDR matches of main.py line 67. -/
def match_addr (top_rtl : Str) : List (Str × Str) := findallAxi "ARADDR".toList top_rtl

/-- The WDATA matches of main.py line 68. -/
def match_data (top_rtl : Str) : List (Str × Str) := findallAxi "WDATA".toList top_rtl

/-- The ParameterTable `param_to_value` of main.py line 72. -/
def param_table (top_rtl : Str) : List (Str × Str) := buildDict (findallParam top_rtl)

/-- The dict `name_to_addr_width` of main.py line 75. -/
def name_to_addr_width (top_rtl : Str) : List (Str × Str) :=
  buildDict ((match_addr top_rtl).map fun p => (p.2, p.1))

/-- Embedding of `parse_m_axi_interfaces` (main.py lines 61-85); the input is
the full text of the top-level RTL file. -/
def parse_m_axi_interfaces (top_rtl : Str) : Except AxiError (List AXI) :=
  buildAxiList (match_data top_rtl) (name_to_addr_width top_rtl) (param_table top_rtl)

/-! ## Testbench assembly (`get_cosim_tb`) -/

/-- Modelled from the spec: the template bodies of `tapa_fast_cosim/templates.py`
are absent from src/; spec sections 1, 4.3 and 6 treat them as opaque,
deterministic pure text producers over their declared inputs.  Each template
is modelled as such a function with a placeholder body. -/
def get_begin : Str := "// begin".toList

/-- Modelled from the spec: per-interface memory-model instantiation block
(pure function of the interface). -/
def get_axi_ram_inst (axi : AXI) : Str :=
  "axi_ram ".toList ++ axi.name ++ " ".toList ++ (toString axi.data_width).toList ++
    " ".toList ++ (toString axi.addr_width).toList

/-- Modelled from the spec: control-interface instantiation block. -/
def get_s_axi_control : Str := "// s_axi_control".toList

/-- Modelled from the spec: device-under-test instantiation block
(pure function of the top module name and the interface list). -/
def get_dut (top_name : Str) (axi_list : List AXI) : Str :=
  "dut ".toList ++ top_name ++ (axi_list.map fun a => ' ' :: a.name).flatten

/-- Modelled from the spec: stimulus block built from the register map, the
scalar values and the interface list. -/
def get_test_signals (arg_to_reg_addrs : RegMap) (scalar_to_val : List (Str × Str))
    (axi_list : List AXI) : Str :=
  (arg_to_reg_addrs.map fun p => p.1 ++ (p.2.flatten) ++ ((listLookup scalar_to_val p.1).getD [])).flatten
    ++ (axi_list.map fun a => a.name).flatten

/-- Modelled from the spec: closing block. -/
def get_end : Str := "// end".toList

/-- Embedding of `get_cosim_tb` (main.py lines 88-108): parse the register
map from the control RTL lines, then concatenate the template blocks in the
fixed order of the source.  The file read of main.py line 46 is modelled by
passing the control file's lines. -/
def get_cosim_tb (top_name : Str) (s_axi_control_lines : List Str) (axi_list : List AXI)
    (scalar_to_val : List (Str × Str)) : Except CtrlError Str :=
  match parse_register_addr s_axi_control_lines with
  | Except.error e => Except.error e
  | Except.ok arg_to_reg_addrs =>
    Except.ok <|
      (get_begin ++ ['\n']) ++
      (axi_list.map fun axi => get_axi_ram_inst axi ++ ['\n']).flatten ++
      (get_s_axi_control ++ ['\n']) ++
      (get_dut top_name axi_list ++ ['\n']) ++
      get_test_signals arg_to_reg_addrs scalar_to_val axi_list ++
      (get_end ++ ['\n'])

/-! ## Specification-side definitions and concrete fixtures -/

/-- Specification-side description of claim C3: the rewritten address tokens
contributed to argument `X`, in file order — one per retained comment line
that passes the data-line filter and whose leftmost pattern match names `X`. -/
def extractFor (X : Str) (cs : List Str) : List Str :=
  cs.filterMap fun l =>
    if lineFilter l then
      match searchDS l with
      | some (a, s) => if s = X then some (hRewrite a) else none
      | none => none
    else none

/-- Specification-side description of claim C6: the value of the last
occurrence of key `x` in source order. -/
def lastVal {α β : Type} [DecidableEq α] (x : α) : List (α × β) → Option β
  | [] => none
  | p :: ps =>
    match lastVal x ps with
    | some w => some w
    | none => if p.1 = x then some p.2 else none

/-- A declaration line `output [<ds>:0] m_axi_foo_<sig>;` of the top RTL. -/
def declLine (sig ds : Str) : Str :=
  "output [".toList ++ ds ++ ":0] m_axi_foo_".toList ++ sig ++ ";\n".toList

/-- The fixture of claim C4. -/
def c4Rtl : Str := declLine "ARADDR".toList "31".toList ++ declLine "WDATA".toList "63".toList

/-- The fixture of claim C5. -/
def c5Rtl : Str :=
  "parameter W = 31;\noutput [31:0] m_axi_bar_ARADDR;\noutput [W:0] m_axi_bar_WDATA;\n".toList

/-- The two bus-declaration lines of the claim C5 fixture. -/
def c5Tail : Str :=
  "output [31:0] m_axi_bar_ARADDR;\noutput [W:0] m_axi_bar_WDATA;\n".toList

/-- The claim C5 family: the same fixture with an arbitrary literal as the
declared parameter value. -/
def c5RtlOf (ds : Str) : Str := "parameter W = ".toList ++ ds ++ ";\n".toList ++ c5Tail

/-- Canonical decimal literals: non-empty digit strings without a spurious
leading zero (the only integer-literal form CPython `eval` accepts). -/
def canonDigits (ds : Str) : Prop :=
  ds ≠ [] ∧ (∀ c ∈ ds, c.isDigit = true) ∧ (ds.head? = some '0' → ds = ['0'])

/-- A top RTL declaring an ARADDR bus with no matching WDATA bus (claim C1). -/
def c1AddrOnlyRtl : Str := "output [31:0] m_axi_foo_ARADDR;\n".toList

/-- A top RTL declaring a WDATA bus with no matching ARADDR bus (claim C1). -/
def c1WdataOnlyRtl : Str := "output [63:0] m_axi_foo_WDATA;\n".toList

/-- A well-formed control RTL fixture with two data-signal lines for `a`. -/
def c3Lines : List Str :=
  [ "// 0x00 : Control signals",
    "//        bit 0  - ap_start (Read/Write/COH)",
    "//        bit 1  - ap_done (Read/COR)",
    "// 0x04 : Global Interrupt Enable Register",
    "// 0x10 : Data signal of a",
    "//        bit 31~0 - a[31:0] (Read/Write)",
    "// 0x14 : Data signal of a",
    "module foo_control_s_axi;" ].map String.toList

/-- The register map extracted from `c3Lines`. -/
def c3Map : RegMap := [("a".toList, [hLit ++ "10".toList, hLit ++ "14".toList])]

/-- A control RTL fixture whose `- ap_start` line inside the control-register
range lacks its `bit 0` annotation (claim C2). -/
def c2Lines : List Str :=
  [ "// 0x00 : Control signals",
    "// - ap_start",
    "// 0x04 : Global Interrupt Enable Register" ].map String.toList

/-- A control RTL fixture whose comment block has no `0x00` and no `0x04`
line (claim C7). -/
def c7Lines : List Str := ["// hello".toList]

/-- A control RTL fixture with a comment line that passes the data-line
filter but not the full data-signal pattern (claim C9). -/
def c9Lines : List Str :=
  [ "// 0x00 : Control signals",
    "// 0x04 : Global Interrupt Enable Register",
    "// 0x10 - Data signal of foo" ].map String.toList

/-- A well-formed control RTL fixture for claim C10. -/
def c10OkLines : List Str :=
  [ "// 0x00 : Control signals",
    "// 0x04 : Global Interrupt Enable Register",
    "// 0x10 : Data signal of e" ].map String.toList

/-- A well-formed-looking data-signal line whose address literal `0x040`
contains the keyword token `0x04` as a substring (claim C10). -/
def c10BadLine : Str := "// 0x040 : Data signal of e".toList

/-- Concrete assembler arguments for the determinism witness. -/
def c8Top : Str := "VecAdd".toList

/-- Concrete interface list for the determinism witness. -/
def c8Axi : List AXI := [{ name := "foo".toList, data_width := 64, addr_width := 32 }]

/-- Concrete scalar-value map for the determinism witness. -/
def c8Scal : List (Str × Str) := [("n".toList, "100".toList)]

/-! ## Helper lemmas -/

theorem all_false_of_mem {α : Type} {p : α → Bool} {l : List α} {a : α}
    (h : a ∈ l) (hp : p a = false) : l.all p = false := by
  cases hall : l.all p with
  | false => rfl
  | true => exact absurd (List.all_eq_true.mp hall a h) (by simp [hp])

theorem firstIdx_eq_none {α : Type} {p : α → Bool} :
    ∀ {l : List α}, (∀ a ∈ l, p a = false) → firstIdx p l = none := by
  intro l
  induction l with
  | nil => intro _; rfl
  | cons a t ih =>
    intro h
    simp only [firstIdx]
    rw [h a (List.mem_cons_self a t)]
    simp [ih fun x hx => h x (List.mem_cons_of_mem a hx)]

theorem parse_check_error {lines : List Str} {e : CtrlError}
    (h : _check_s_axi_control_format (commentsOf lines) = Except.error e) :
    parse_register_addr lines = Except.error e := by
  simp only [parse_register_addr]
  rw [h]

theorem parse_check_ok {lines : List Str}
    (h : _check_s_axi_control_format (commentsOf lines) = Except.ok ()) :
    parse_register_addr lines = regLoop [] (commentsOf lines) := by
  simp only [parse_register_addr]
  rw [h]

/-! ## Claim C2 -/

/-- Claim C2: for every control RTL file whose comment block contains a line
within the control-register range (between the first `0x00` line and the
first `0x04` line) that mentions one of the fixed control registers without
its expected bit annotation, register-map extraction fails with a
FormatMismatch error rather than returning a RegisterMap. -/
theorem c2_missing_fixed_bit_fails
    (lines : List Str) (b e : Nat) (line reg addr : Str)
    (hb : firstIdx (fun l => containsS l "0x00".toList) (commentsOf lines) = some b)
    (he : firstIdx (fun l => containsS l "0x04".toList) (commentsOf lines) = some e)
    (hmem : line ∈ ((commentsOf lines).drop b).take (e - b))
    (hfa : (reg, addr) ∈ fixed_addresses)
    (hreg : containsS line reg = true)
    (haddr : containsS line addr = false) :
    ∃ er, parse_register_addr lines = Except.error er ∧ isFormatMismatch er = true := by
  have hline : checkFixedLine line = false := by
    unfold checkFixedLine
    exact all_false_of_mem hfa (by simp [hreg, haddr])
  cases hk : (commentsOf lines).all checkKeywordLine with
  | false =>
    refine ⟨CtrlError.keywordAssert, parse_check_error ?_, rfl⟩
    simp [_check_s_axi_control_format, hk]
  | true =>
    refine ⟨CtrlError.fixedAssert, parse_check_error ?_, rfl⟩
    have hslice := all_false_of_mem hmem hline
    unfold _check_s_axi_control_format
    rw [hk, hb, he]
    simp only [if_true]
    rw [hslice]
    simp

/-- Witness for C2 at the concrete fixture `c2Lines`, whose `- ap_start`
line between the `0x00` and `0x04` lines lacks `bit 0`. -/
theorem c2_missing_fixed_bit_fails_witness :
    ∃ er, parse_register_addr c2Lines = Except.error er ∧ isFormatMismatch er = true :=
  c2_missing_fixed_bit_fails c2Lines 0 2 "// - ap_start".toList
    "- ap_start".toList "bit 0".toList rfl rfl (by decide) (by decide) (by decide) (by decide)

/-! ## Claim C7 -/

/-- Claim C7: for every control RTL file whose retained comment lines contain
no `0x00` line or no `0x04` line, register-map extraction fails with a
FormatMismatch error instead of returning a RegisterMap — an index lookup
failure whenever the per-line keyword-group assertion passed first. -/
theorem c7_missing_index_lines_fails
    (lines : List Str)
    (h : (∀ l ∈ commentsOf lines, containsS l "0x00".toList = false) ∨
         (∀ l ∈ commentsOf lines, containsS l "0x04".toList = false)) :
    ∃ er, parse_register_addr lines = Except.error er ∧ isFormatMismatch er = true ∧
      ((commentsOf lines).all checkKeywordLine = true → er = CtrlError.indexError) := by
  cases hk : (commentsOf lines).all checkKeywordLine with
  | false =>
    have hchk : _check_s_axi_control_format (commentsOf lines) =
        Except.error CtrlError.keywordAssert := by
      simp [_check_s_axi_control_format, hk]
    exact ⟨CtrlError.keywordAssert, parse_check_error hchk, rfl,
      fun ht => by simp at ht⟩
  | true =>
    refine ⟨CtrlError.indexError, parse_check_error ?_, rfl, fun _ => rfl⟩
    unfold _check_s_axi_control_format
    rw [hk]
    simp only [if_true]
    rcases h with h0 | h4
    · rw [firstIdx_eq_none h0]
    · rw [firstIdx_eq_none h4]
      cases firstIdx (fun l => containsS l "0x00".toList) (commentsOf lines) <;> rfl

/-- Witness for C7 at the concrete fixture `c7Lines`. -/
theorem c7_missing_index_lines_fails_witness :
    ∃ er, parse_register_addr c7Lines = Except.error er ∧ isFormatMismatch er = true ∧
      ((commentsOf c7Lines).all checkKeywordLine = true → er = CtrlError.indexError) :=
  c7_missing_index_lines_fails c7Lines (Or.inl (by decide))

/-! ## Claim C9 -/

theorem regLoop_attr {cs : List Str}
    (h : ∃ l ∈ cs, lineFilter l = true ∧ searchDS l = none) :
    ∀ m, regLoop m cs = Except.error CtrlError.attributeError := by
  induction cs with
  | nil => rcases h with ⟨l, hl, _⟩; cases hl
  | cons c rest ih =>
    rcases h with ⟨l, hl, hf, hs⟩
    intro m
    cases hfc : lineFilter c with
    | false =>
      have hlr : l ∈ rest := by
        rcases List.mem_cons.mp hl with rfl | hr
        · rw [hf] at hfc; cases hfc
        · exact hr
      simp only [regLoop, hfc]
      exact ih ⟨l, hlr, hf, hs⟩ m
    | true =>
      cases hsc : searchDS c with
      | none => simp [regLoop, hfc, hsc]
      | some p =>
        have hlr : l ∈ rest := by
          rcases List.mem_cons.mp hl with rfl | hr
          · rw [hs] at hsc; cases hsc
          · exact hr
        simp only [regLoop, hfc, hsc]
        exact ih ⟨l, hlr, hf, hs⟩ _

/-- Claim C9 (implicit): for every comment line that contains `' 0x'` and
`'Data signal'` but does not match the full data-signal pattern, register-map
extraction aborts with the unhandled `AttributeError` of the absent pattern
match — not by skipping the line and not with a FormatMismatch. -/
theorem c9_malformed_data_line_attribute_error
    (lines : List Str) (line : Str)
    (hok : _check_s_axi_control_format (commentsOf lines) = Except.ok ())
    (hmem : line ∈ commentsOf lines)
    (hf : lineFilter line = true)
    (hs : searchDS line = none) :
    parse_register_addr lines = Except.error CtrlError.attributeError := by
  rw [parse_check_ok hok]
  exact regLoop_attr ⟨line, hmem, hf, hs⟩ []

/-- Witness for C9 at the concrete fixture `c9Lines`, whose third line
`// 0x10 - Data signal of foo` passes the filter but not the pattern. -/
theorem c9_malformed_data_line_attribute_error_witness :
    parse_register_addr c9Lines = Except.error CtrlError.attributeError :=
  c9_malformed_data_line_attribute_error c9Lines "// 0x10 - Data signal of foo".toList
    rfl (by decide) (by decide) rfl

/-! ## Claim C3 -/

theorem regLoop_cons_skip {c : Str} {rest : List Str} {m : RegMap}
    (h : lineFilter c = false) : regLoop m (c :: rest) = regLoop m rest := by
  simp [regLoop, h]

theorem regLoop_cons_match {c : Str} {rest : List Str} {m : RegMap} {a s : Str}
    (hf : lineFilter c = true) (hs : searchDS c = some (a, s)) :
    regLoop m (c :: rest) = regLoop (addEntry m s (hRewrite a)) rest := by
  simp [regLoop, hf, hs]

theorem lookup_addEntry (m : RegMap) (k v X : Str) :
    listLookup (addEntry m k v) X =
      if X = k then some ((listLookup m k).getD [] ++ [v]) else listLookup m X := by
  induction m with
  | nil =>
    by_cases hx : X = k <;> simp [addEntry, listLookup, hx]
  | cons p m ih =>
    obtain ⟨k', vs⟩ := p
    by_cases hk : k' = k
    · subst hk
      by_cases hx : X = k' <;> simp [addEntry, listLookup, hx]
    · by_cases hx : X = k'
      · subst hx
        have hxk : ¬ X = k := hk
        simp [addEntry, listLookup, hk, hxk]
      · have hkx : ¬ k = k' := fun he => hk he.symm
        simp [addEntry, listLookup, hk, hx, hkx, ih]

theorem regLoop_ok_lookup (X : Str) :
    ∀ (cs : List Str) (m0 m : RegMap), regLoop m0 cs = Except.ok m →
      (listLookup m X).getD [] = (listLookup m0 X).getD [] ++ extractFor X cs := by
  intro cs
  induction cs with
  | nil =>
    intro m0 m h
    cases h
    simp [extractFor]
  | cons c rest ih =>
    intro m0 m h
    cases hfc : lineFilter c with
    | false =>
      rw [regLoop_cons_skip hfc] at h
      rw [ih m0 m h]
      simp [extractFor, List.filterMap_cons, hfc]
    | true =>
      cases hsc : searchDS c with
      | none =>
        rw [regLoop, hfc, hsc] at h
        simp at h
      | some p =>
        obtain ⟨a, s⟩ := p
        rw [regLoop_cons_match hfc hsc] at h
        rw [ih _ m h, lookup_addEntry]
        by_cases hxs : X = s
        · subst hxs
          simp [extractFor, List.filterMap_cons, hfc, hsc, List.append_assoc]
        · have hsx : ¬ s = X := fun he => hxs he.symm
          simp [extractFor, List.filterMap_cons, hfc, hsc, hxs, hsx]

/-- Claim C3: for every control RTL file, the returned RegisterMap maps each
argument `X` to exactly the address tokens of the comment lines whose
data-signal pattern names `X`, in file order, each rewritten from the `0x`
prefix to the hardware-literal `'h` form. -/
theorem c3_register_map_addresses
    (lines : List Str) (X : Str) (m : RegMap)
    (h : parse_register_addr lines = Except.ok m) :
    (listLookup m X).getD [] = extractFor X (commentsOf lines) := by
  cases hc : _check_s_axi_control_format (commentsOf lines) with
  | error e => rw [parse_check_error hc] at h; cases h
  | ok u =>
    obtain ⟨⟩ := u
    rw [parse_check_ok hc] at h
    have := regLoop_ok_lookup X (commentsOf lines) [] m h
    simpa [listLookup] using this

/-- Witness for C3 at the concrete fixture `c3Lines`: the two data lines
`0x10`/`0x14` of argument `a` yield exactly `'h10`, `'h14` in that order. -/
theorem c3_register_map_addresses_witness :
    parse_register_addr c3Lines = Except.ok c3Map ∧
      (listLookup c3Map "a".toList).getD [] = [hLit ++ "10".toList, hLit ++ "14".toList] :=
  ⟨rfl, (c3_register_map_addresses c3Lines "a".toList c3Map rfl).trans rfl⟩


/-! ## Claim C6 -/

theorem lookup_insertOver {α β : Type} [DecidableEq α] (d : List (α × β)) (k : α) (v : β) (x : α) :
    listLookup (insertOver d k v) x = if x = k then some v else listLookup d x := by
  induction d with
  | nil => by_cases hx : x = k <;> simp [insertOver, listLookup, hx]
  | cons p d ih =>
    obtain ⟨k', v'⟩ := p
    by_cases hk : k' = k
    · subst hk
      by_cases hx : x = k' <;> simp [insertOver, listLookup, hx]
    · by_cases hx : x = k'
      · subst hx
        have hxk : ¬ x = k := hk
        simp [insertOver, listLookup, hk, hxk]
      · simp [insertOver, listLookup, hk, hx, ih]

theorem lookup_foldl_insertOver {α β : Type} [DecidableEq α] (x : α) :
    ∀ (ps : List (α × β)) (d : List (α × β)),
      listLookup (ps.foldl (fun d p => insertOver d p.1 p.2) d) x =
        match lastVal x ps with
        | some w => some w
        | none => listLookup d x := by
  intro ps
  induction ps with
  | nil => intro d; simp [lastVal]
  | cons p ps ih =>
    intro d
    rw [List.foldl_cons, ih, lastVal]
    cases lastVal x ps with
    | some w => rfl
    | none =>
      rw [lookup_insertOver]
      by_cases hx : x = p.1
      · subst hx
        simp
      · have hpx : ¬ p.1 = x := fun he => hx he.symm
        simp [hx, hpx]

/-- Claim C6: the ParameterTable used for width substitution binds every
name to the value of its last `parameter NAME = VALUE;` occurrence in source
order, and it is exactly the table `parse_m_axi_interfaces` substitutes with. -/
theorem c6_last_parameter_wins (top_rtl : Str) (x : Str) :
    listLookup (param_table top_rtl) x = lastVal x (findallParam top_rtl) ∧
      parse_m_axi_interfaces top_rtl =
        buildAxiList (match_data top_rtl) (name_to_addr_width top_rtl) (param_table top_rtl) := by
  constructor
  · rw [param_table, buildDict, lookup_foldl_insertOver]
    cases lastVal x (findallParam top_rtl) <;> rfl
  · rfl

/-! ## Claim C5 -/

/-! ## Claim C10 -/

/-- Claim C10 (implicit): the keyword-group validation applies to every
retained comment line, requiring the address token and its paired phrase to
co-occur as substrings; consequently a well-formed-looking data-signal line
whose address literal `0x040` merely contains the token `0x04` makes
extraction fail, while the same file without that line succeeds. -/
theorem c10_substring_keyword_check :
    parse_register_addr c10OkLines = Except.ok [("e".toList, [hLit ++ "10".toList])] ∧
      parse_register_addr (c10OkLines ++ [c10BadLine]) =
        Except.error CtrlError.keywordAssert :=
  ⟨rfl, rfl⟩

/-! ## Claim C8 -/

/-- Claim C8: the testbench assembler is deterministic — two calls with
identical top module name, control RTL content, AxiInterface sequence and
scalar-value mapping produce identical testbench text.  In the embedding the
assembler is a pure function of exactly these four inputs (the file read of
the source is the lines argument), so determinism is congruence. -/
theorem c8_assembler_deterministic
    (t1 t2 : Str) (c1 c2 : List Str) (a1 a2 : List AXI) (s1 s2 : List (Str × Str))
    (ht : t1 = t2) (hc : c1 = c2) (ha : a1 = a2) (hs : s1 = s2) :
    get_cosim_tb t1 c1 a1 s1 = get_cosim_tb t2 c2 a2 s2 := by
  subst ht
  subst hc
  subst ha
  subst hs
  rfl

/-- Witness for C8 at concrete assembler inputs. -/
theorem c8_assembler_deterministic_witness :
    get_cosim_tb c8Top c3Lines c8Axi c8Scal = get_cosim_tb c8Top c3Lines c8Axi c8Scal :=
  c8_assembler_deterministic c8Top c8Top c3Lines c3Lines c8Axi c8Axi c8Scal c8Scal
    rfl rfl rfl rfl

/-! ## Claim C1 -/

theorem buildAxiList_error_of_missing :
    ∀ (md : List (Str × Str)) (tab pt : List (Str × Str)),
      (∃ p ∈ md, listLookup tab p.2 = none) →
      ∃ e, buildAxiList md tab pt = Except.error e := by
  intro md
  induction md with
  | nil =>
    intro tab pt h
    rcases h with ⟨p, hp, _⟩
    cases hp
  | cons q rest ih =>
    intro tab pt h
    obtain ⟨data_width, m_axi⟩ := q
    cases hlk : listLookup tab m_axi with
    | none => exact ⟨AxiError.missingInterface, by simp [buildAxiList, hlk]⟩
    | some addr_width =>
      have hrest : ∃ p ∈ rest, listLookup tab p.2 = none := by
        rcases h with ⟨p, hp, hnone⟩
        rcases List.mem_cons.mp hp with rfl | hr
        · rw [hnone] at hlk; cases hlk
        · exact ⟨p, hr, hnone⟩
      obtain ⟨e, he⟩ := ih tab pt hrest
      cases hd : evalExpr (substParams pt data_width) with
      | none => exact ⟨AxiError.unresolvedWidth, by simp [buildAxiList, hlk, hd]⟩
      | some d =>
        cases ha : evalExpr (substParams pt addr_width) with
        | none => exact ⟨AxiError.unresolvedWidth, by simp [buildAxiList, hlk, hd, ha]⟩
        | some a =>
          refine ⟨e, ?_⟩
          simp [buildAxiList, hlk, hd, ha, he, Except.map]

/-- Claim C1 as amended: a WDATA bus whose interface name has no matching
ARADDR declaration makes interface extraction fail (MissingInterfaceError at
the lookup, as at the concrete WDATA-only fixture) and produce no
interfaces; an ARADDR with no matching WDATA is silently ignored. -/
theorem c1_wdata_without_araddr_fails :
    (∀ top_rtl : Str,
        (∃ p ∈ match_data top_rtl, listLookup (name_to_addr_width top_rtl) p.2 = none) →
        ∃ e, parse_m_axi_interfaces top_rtl = Except.error e) ∧
      parse_m_axi_interfaces c1WdataOnlyRtl = Except.error AxiError.missingInterface :=
  ⟨fun _ h => buildAxiList_error_of_missing _ _ _ h, rfl⟩

/-- Witness for C1 at the concrete WDATA-only fixture. -/
theorem c1_wdata_without_araddr_fails_witness :
    (∃ p ∈ match_data c1WdataOnlyRtl,
        listLookup (name_to_addr_width c1WdataOnlyRtl) p.2 = none) ∧
      ∃ e, parse_m_axi_interfaces c1WdataOnlyRtl = Except.error e :=
  ⟨⟨("63".toList, "foo".toList), by decide, rfl⟩,
    c1_wdata_without_araddr_fails.1 c1WdataOnlyRtl
      ⟨("63".toList, "foo".toList), by decide, rfl⟩⟩

/-- Counterexample to claim C1 as stated: the fixture declares an ARADDR bus
with no matching WDATA bus, yet interface extraction raises no error at all —
it returns the empty interface list. -/
theorem c1_araddr_only_no_error :
    parse_m_axi_interfaces c1AddrOnlyRtl = Except.ok [] := rfl

/-! ## Claim C4: generic scanning lemmas -/

theorem suffix_eq_drop {α : Type} {t l : List α} (h : t <:+ l) :
    ∃ n, n ≤ l.length ∧ t = l.drop n := by
  obtain ⟨u, hu⟩ := h
  refine ⟨u.length, ?_, ?_⟩
  · rw [← hu]; simp
  · rw [← hu, List.drop_left]

theorem suffix_append_cases {α : Type} {t a b : List α} (h : t <:+ a ++ b) :
    t <:+ b ∨ ∃ a', a' <:+ a ∧ a' ≠ [] ∧ t = a' ++ b := by
  induction a with
  | nil => left; simpa using h
  | cons c a ih =>
    rw [List.cons_append] at h
    rcases List.suffix_cons_iff.mp h with h1 | h2
    · right
      exact ⟨c :: a, List.suffix_refl _, by simp, by rw [h1, List.cons_append]⟩
    · rcases ih h2 with hb | ⟨a', hs, hne, he⟩
      · exact Or.inl hb
      · exact Or.inr ⟨a', hs.trans (List.suffix_cons c a), hne, he⟩

theorem takeWhile_all {α : Type} {p : α → Bool} {l : List α}
    (h : ∀ a ∈ l, p a = true) : l.takeWhile p = l := by
  induction l with
  | nil => rfl
  | cons c t ih =>
    rw [List.takeWhile_cons, h c (List.mem_cons_self c t),
      ih fun a ha => h a (List.mem_cons_of_mem c ha)]
    simp

theorem digit_ne_char {c : Char} (hc : c.isDigit = true) {d : Char}
    (hd : d.isDigit = false) : ¬ c = d := by
  intro he
  rw [he, hd] at hc
  cases hc

theorem digit_beq_false {c : Char} (hc : c.isDigit = true) {d : Char}
    (hd : d.isDigit = false) : (c == d) = false :=
  beq_eq_false_iff_ne.mpr (digit_ne_char hc hd)

theorem digit_not_space {c : Char} (hc : c.isDigit = true) : isPySpace c = false := by
  unfold isPySpace
  rw [digit_beq_false hc (by decide), digit_beq_false hc (by decide),
    digit_beq_false hc (by decide), digit_beq_false hc (by decide),
    digit_beq_false hc (by decide), digit_beq_false hc (by decide)]
  rfl

theorem matchAxiAt_none_of_head {sig : Str} {c : Char} (h : ¬ c = 'o') (s : Str) :
    matchAxiAt sig (c :: s) = none := by
  have hb : ('o' == c) = false := beq_eq_false_iff_ne.mpr fun he => h he.symm
  have h2 : isPrefixOfL "output".toList (c :: s) = false := by
    show ('o' == c && isPrefixOfL "utput".toList s) = false
    rw [hb]
    rfl
  unfold matchAxiAt
  rw [h2]
  rfl

theorem matchParamAt_none_of_head {c : Char} (h : ¬ c = 'p') (s : Str) :
    matchParamAt (c :: s) = none := by
  have hb : ('p' == c) = false := beq_eq_false_iff_ne.mpr fun he => h he.symm
  have h2 : isPrefixOfL "parameter".toList (c :: s) = false := by
    show ('p' == c && isPrefixOfL "arameter".toList s) = false
    rw [hb]
    rfl
  unfold matchParamAt
  rw [h2]
  rfl

theorem tailAxi_none_of_head {sig : Str} {c : Char} (h : ¬ c = ':') (s : Str) :
    tailAxi sig (c :: s) = none := by
  unfold tailAxi
  split <;> simp_all

theorem scanA_nil_fuel (sig : Str) (f : Nat) : scanA sig f [] = [] := by
  cases f <;> rfl

theorem scanA_cons_match {sig : Str} {f : Nat} {c : Char} {cs w nm rest : Str}
    (h : matchAxiAt sig (c :: cs) = some (w, nm, rest)) :
    scanA sig (f + 1) (c :: cs) = (w, nm) :: scanA sig f rest := by
  simp [scanA, h]

theorem scanA_cons_skip {sig : Str} {f : Nat} {c : Char} {cs : Str}
    (h : matchAxiAt sig (c :: cs) = none) :
    scanA sig (f + 1) (c :: cs) = scanA sig f cs := by
  simp [scanA, h]

theorem scanA_succ_match {sig s w nm rest : Str} (f : Nat)
    (h : matchAxiAt sig s = some (w, nm, rest)) :
    scanA sig (f + 1) s = (w, nm) :: scanA sig f rest := by
  cases s with
  | nil =>
    rw [show matchAxiAt sig [] = none from rfl] at h
    cases h
  | cons c cs => exact scanA_cons_match h

theorem scanA_succ_skip {sig s : Str} (f : Nat) (h : matchAxiAt sig s = none) :
    scanA sig (f + 1) s = scanA sig f s.tail := by
  cases s with
  | nil => simp [scanA_nil_fuel]
  | cons c cs => exact scanA_cons_skip h

theorem scanA_nil_of_no_match {sig : Str} :
    ∀ (f : Nat) (s : Str), (∀ t, t <:+ s → matchAxiAt sig t = none) → scanA sig f s = [] := by
  intro f
  induction f with
  | zero => intro s _; rfl
  | succ f ih =>
    intro s h
    cases s with
    | nil => rfl
    | cons c cs =>
      rw [scanA_cons_skip (h _ (List.suffix_refl _))]
      exact ih cs fun t ht => h t (ht.trans (List.suffix_cons c cs))

theorem scanA_append_nomatch {sig : Str} :
    ∀ (a : Str) (f : Nat) (s : Str),
      (∀ a', a' <:+ a → a' ≠ [] → matchAxiAt sig (a' ++ s) = none) →
      scanA sig f (a ++ s) = scanA sig (f - a.length) s := by
  intro a
  induction a with
  | nil => intro f s _; simp
  | cons c a ih =>
    intro f s h
    cases f with
    | zero => rw [show ((c :: a) ++ s : Str) = c :: (a ++ s) from rfl]; simp [scanA]
    | succ f =>
      have hm : matchAxiAt sig (c :: (a ++ s)) = none := by
        rw [← List.cons_append]
        exact h (c :: a) (List.suffix_refl _) (by simp)
      rw [List.cons_append, scanA_cons_skip hm,
        ih f s fun a' ha' hne => h a' (ha'.trans (List.suffix_cons c a)) hne]
      simp [Nat.succ_sub_succ]

theorem scanP_nil_of_no_match :
    ∀ (f : Nat) (s : Str), (∀ t, t <:+ s → matchParamAt t = none) → scanP f s = [] := by
  intro f
  induction f with
  | zero => intro s _; rfl
  | succ f ih =>
    intro s h
    cases s with
    | nil => rfl
    | cons c cs =>
      rw [show scanP (f + 1) (c :: cs) = scanP f cs from by
        simp [scanP, h _ (List.suffix_refl _)]]
      exact ih cs fun t ht => h t (ht.trans (List.suffix_cons c cs))

theorem axiSplitLoop_none {sig s3 : Str} :
    ∀ N, (∀ k, k ≤ N → tailAxi sig (s3.drop k) = none) → axiSplitLoop sig s3 N = none := by
  intro N
  induction N with
  | zero =>
    intro h
    have h0 := h 0 (Nat.le_refl 0)
    rw [List.drop_zero] at h0
    simp [axiSplitLoop, h0]
  | succ N ih =>
    intro h
    rw [axiSplitLoop, h (N + 1) (Nat.le_refl _)]
    exact ih fun k hk => h k (Nat.le_succ_of_le hk)

theorem axiSplitLoop_found {sig s3 : Str} {K : Nat} {nm rest : Str}
    (hK : tailAxi sig (s3.drop K) = some (nm, rest)) :
    ∀ N, K ≤ N → (∀ k, K < k → k ≤ N → tailAxi sig (s3.drop k) = none) →
      axiSplitLoop sig s3 N = some (s3.take K, nm, rest) := by
  intro N
  induction N with
  | zero =>
    intro hKN _
    have hK0 : K = 0 := Nat.le_zero.mp hKN
    subst hK0
    rw [List.drop_zero] at hK
    simp [axiSplitLoop, hK]
  | succ N ih =>
    intro hKN h
    rcases Nat.lt_or_ge K (N + 1) with hlt | hge
    · rw [axiSplitLoop, h (N + 1) hlt (Nat.le_refl _)]
      exact ih (Nat.lt_succ_iff.mp hlt) fun k hk1 hk2 => h k hk1 (Nat.le_succ_of_le hk2)
    · have hKeq : K = N + 1 := Nat.le_antisymm hKN hge
      subst hKeq
      rw [axiSplitLoop, hK]

theorem drop_append_right {α : Type} (a b : List α) (j : Nat) :
    (a ++ b).drop (a.length + j) = b.drop j := by
  rw [← List.drop_drop, List.drop_left]

theorem matchAxiAt_digits (sig ds Y : Str) (L : Nat)
    (hdig : ∀ c ∈ ds, c.isDigit = true)
    (hL : (Y.takeWhile fun c => !(c == '\n')).length = L)
    (hj : ∀ j, 1 ≤ j → j ≤ L → tailAxi sig (Y.drop j) = none) :
    matchAxiAt sig ("output [".toList ++ ds ++ Y) =
      match tailAxi sig Y with
      | some (nm, rest) => some (ds, nm, rest)
      | none => none := by
  have hstep : matchAxiAt sig ("output [".toList ++ ds ++ Y) =
      axiSplitLoop sig (ds ++ Y) ((ds ++ Y).takeWhile fun c => !(c == '\n')).length := rfl
  have hTW : ((ds ++ Y).takeWhile fun c => !(c == '\n')) =
      ds ++ (Y.takeWhile fun c => !(c == '\n')) :=
    List.takeWhile_append_of_pos fun c hc => by
      rw [digit_beq_false (hdig c hc) (by decide)]
      rfl
  rw [hstep, hTW, List.length_append, hL]
  have hdropY : (ds ++ Y).drop ds.length = Y := List.drop_left ds Y
  cases h0 : tailAxi sig Y with
  | some p =>
    obtain ⟨nm, rest⟩ := p
    have hfound := @axiSplitLoop_found sig (ds ++ Y) ds.length nm rest
      (by rw [hdropY]; exact h0) (ds.length + L) (Nat.le_add_right _ _) ?_
    · rw [hfound, List.take_left]
    · intro k h1 h2
      obtain ⟨j, rfl⟩ : ∃ j, k = ds.length + j := ⟨k - ds.length, by omega⟩
      rw [drop_append_right]
      exact hj j (by omega) (by omega)
  | none =>
    rw [axiSplitLoop_none]
    intro k hk
    rcases Nat.lt_or_ge k ds.length with hlt | hge
    · rw [List.drop_append_of_le_length (Nat.le_of_lt hlt)]
      have hne : ds.drop k ≠ [] := by
        intro he
        have hlen := congrArg List.length he
        simp at hlen
        omega
      obtain ⟨c, t', hct⟩ := List.exists_cons_of_ne_nil hne
      rw [hct, List.cons_append]
      have hcmem : c ∈ ds := List.mem_of_mem_drop (hct ▸ List.mem_cons_self c t')
      exact tailAxi_none_of_head (digit_ne_char (hdig c hcmem) (by decide)) _
    · obtain ⟨j, rfl⟩ : ∃ j, k = ds.length + j := ⟨k - ds.length, by omega⟩
      rw [drop_append_right]
      cases j with
      | zero => rw [List.drop_zero]; exact h0
      | succ j => exact hj (j + 1) (by omega) (by omega)

theorem declLine_append_split (sig ds X : Str) :
    declLine sig ds ++ X =
      "output [".toList ++
        (ds ++ (":0] m_axi_foo_".toList ++ (sig ++ (";\n".toList ++ X)))) := by
  simp [declLine, List.append_assoc]

theorem findallAxi_c4_addr (d1 d2 : Str)
    (hd1 : ∀ c ∈ d1, c.isDigit = true) (hd2 : ∀ c ∈ d2, c.isDigit = true) :
    findallAxi "ARADDR".toList (declLine "ARADDR".toList d1 ++ declLine "WDATA".toList d2) =
      [(d1, "foo".toList)] := by
  have hm0 : matchAxiAt "ARADDR".toList
      (declLine "ARADDR".toList d1 ++ declLine "WDATA".toList d2) =
      some (d1, "foo".toList, '\n' :: declLine "WDATA".toList d2) := by
    rw [declLine_append_split]
    exact (matchAxiAt_digits "ARADDR".toList d1
      (":0] m_axi_foo_".toList ++
        ("ARADDR".toList ++ (";\n".toList ++ declLine "WDATA".toList d2))) 21 hd1 rfl
      (by intro j h1 h2; interval_cases j <;> rfl)).trans rfl
  have hnomatch : ∀ t, t <:+ declLine "WDATA".toList d2 →
      matchAxiAt "ARADDR".toList t = none := by
    intro t ht
    simp only [declLine, List.append_assoc] at ht
    rcases suffix_append_cases ht with hB | ⟨a', ha', hane, rfl⟩
    · rcases suffix_append_cases hB with hY | ⟨d', hd', hdne, rfl⟩
      · obtain ⟨n, hn, rfl⟩ := suffix_eq_drop hY
        have h21 : ((":0] m_axi_foo_".toList : Str) ++
            ("WDATA".toList ++ ";\n".toList)).length = 21 := rfl
        rw [h21] at hn
        interval_cases n <;> rfl
      · obtain ⟨c, t', rfl⟩ := List.exists_cons_of_ne_nil hdne
        rw [List.cons_append]
        exact matchAxiAt_none_of_head
          (digit_ne_char (hd2 c (hd'.subset (List.mem_cons_self _ _))) (by decide)) _
    · obtain ⟨n, hn, rfl⟩ := suffix_eq_drop ha'
      have h8 : (("output [".toList : Str)).length = 8 := rfl
      rw [h8] at hn
      interval_cases n
      · simp only [List.drop_zero]
        exact (matchAxiAt_digits "ARADDR".toList d2
          (":0] m_axi_foo_".toList ++ ("WDATA".toList ++ ";\n".toList)) 20 hd2 rfl
          (by intro j h1 h2; interval_cases j <;> rfl)).trans rfl
      · rfl
      · rfl
      · rfl
      · rfl
      · rfl
      · rfl
      · rfl
      · exact absurd rfl hane
  have h2le : 2 ≤ (declLine "ARADDR".toList d1 ++ declLine "WDATA".toList d2).length := by
    rw [declLine_append_split, List.length_append]
    have h8 : (("output [".toList : Str)).length = 8 := rfl
    rw [h8]
    omega
  obtain ⟨g, hg⟩ : ∃ g, (declLine "ARADDR".toList d1 ++ declLine "WDATA".toList d2).length =
      (g + 1) + 1 := ⟨(declLine "ARADDR".toList d1 ++ declLine "WDATA".toList d2).length - 2,
        by omega⟩
  rw [findallAxi, hg, scanA_succ_match (g + 1) hm0,
    scanA_succ_skip g (matchAxiAt_none_of_head (by decide) _)]
  rw [show (('\n' :: declLine "WDATA".toList d2 : Str)).tail = declLine "WDATA".toList d2
    from rfl]
  rw [scanA_nil_of_no_match g _ hnomatch]

theorem findallAxi_c4_data (d1 d2 : Str)
    (hd1 : ∀ c ∈ d1, c.isDigit = true) (hd2 : ∀ c ∈ d2, c.isDigit = true) :
    findallAxi "WDATA".toList (declLine "ARADDR".toList d1 ++ declLine "WDATA".toList d2) =
      [(d2, "foo".toList)] := by
  have haHyp : ∀ a', a' <:+ declLine "ARADDR".toList d1 → a' ≠ [] →
      matchAxiAt "WDATA".toList (a' ++ declLine "WDATA".toList d2) = none := by
    intro a' ha' hane
    simp only [declLine, List.append_assoc] at ha'
    rcases suffix_append_cases ha' with hB | ⟨o', ho', hone, rfl⟩
    · rcases suffix_append_cases hB with hY | ⟨d', hd', hdne, rfl⟩
      · obtain ⟨n, hn, h'⟩ := suffix_eq_drop hY
        subst h'
        have h22 : ((":0] m_axi_foo_".toList : Str) ++
            ("ARADDR".toList ++ ";\n".toList)).length = 22 := rfl
        rw [h22] at hn
        interval_cases n <;> first | rfl | exact absurd rfl hane
      · obtain ⟨c, t', rfl⟩ := List.exists_cons_of_ne_nil hdne
        rw [List.cons_append, List.cons_append]
        exact matchAxiAt_none_of_head
          (digit_ne_char (hd1 c (hd'.subset (List.mem_cons_self _ _))) (by decide)) _
    · obtain ⟨n, hn, h'⟩ := suffix_eq_drop ho'
      subst h'
      have h8 : (("output [".toList : Str)).length = 8 := rfl
      rw [h8] at hn
      interval_cases n
      · simp only [List.drop_zero, List.append_assoc]
        exact (matchAxiAt_digits "WDATA".toList d1
          (":0] m_axi_foo_".toList ++
            ("ARADDR".toList ++ (";\n".toList ++ declLine "WDATA".toList d2))) 21 hd1 rfl
          (by intro j h1 h2; interval_cases j <;> rfl)).trans rfl
      · rfl
      · rfl
      · rfl
      · rfl
      · rfl
      · rfl
      · rfl
      · exact absurd rfl hone
  have h2le : 2 ≤ (declLine "WDATA".toList d2).length := by
    have hsplit2 : declLine "WDATA".toList d2 =
        "output [".toList ++
          (d2 ++ (":0] m_axi_foo_".toList ++ ("WDATA".toList ++ ";\n".toList))) := by
      simp [declLine, List.append_assoc]
    rw [hsplit2, List.length_append]
    have h8 : (("output [".toList : Str)).length = 8 := rfl
    rw [h8]
    omega
  have hm1 : matchAxiAt "WDATA".toList (declLine "WDATA".toList d2) =
      some (d2, "foo".toList, ['\n']) := by
    have hsplit2 : declLine "WDATA".toList d2 =
        "output [".toList ++
          (d2 ++ (":0] m_axi_foo_".toList ++ ("WDATA".toList ++ ";\n".toList))) := by
      simp [declLine, List.append_assoc]
    rw [hsplit2]
    exact (matchAxiAt_digits "WDATA".toList d2
      (":0] m_axi_foo_".toList ++ ("WDATA".toList ++ ";\n".toList)) 20 hd2 rfl
      (by intro j h1 h2; interval_cases j <;> rfl)).trans rfl
  rw [findallAxi, scanA_append_nomatch (declLine "ARADDR".toList d1) _ _ haHyp,
    List.length_append]
  have hlen : (declLine "ARADDR".toList d1).length + (declLine "WDATA".toList d2).length -
      (declLine "ARADDR".toList d1).length = (declLine "WDATA".toList d2).length := by omega
  rw [hlen]
  obtain ⟨g, hg⟩ : ∃ g, (declLine "WDATA".toList d2).length = (g + 1) + 1 :=
    ⟨(declLine "WDATA".toList d2).length - 2, by omega⟩
  rw [hg, scanA_succ_match (g + 1) hm1,
    scanA_succ_skip g (matchAxiAt_none_of_head (by decide) _)]
  rw [show ((['\n'] : Str)).tail = [] from rfl, scanA_nil_fuel]

theorem findallParam_c4 (d1 d2 : Str)
    (hd1 : ∀ c ∈ d1, c.isDigit = true) (hd2 : ∀ c ∈ d2, c.isDigit = true) :
    findallParam (declLine "ARADDR".toList d1 ++ declLine "WDATA".toList d2) = [] := by
  rw [findallParam]
  apply scanP_nil_of_no_match
  intro t ht
  simp only [declLine, List.append_assoc] at ht
  rcases suffix_append_cases ht with hB | ⟨o1, ho1, hone1, rfl⟩
  · rcases suffix_append_cases hB with hC | ⟨d', hd', hdne, rfl⟩
    · rcases suffix_append_cases hC with hD | ⟨m', hm', hmne, rfl⟩
      · rcases suffix_append_cases hD with hE | ⟨s', hs', hsne, rfl⟩
        · rcases suffix_append_cases hE with hF | ⟨x', hx', hxne, rfl⟩
          · -- t <:+ "output [" ++ (d2 ++ (mid ++ ("WDATA" ++ ";\n")))... wait layering
            rcases suffix_append_cases hF with hG | ⟨o2, ho2, hone2, rfl⟩
            · rcases suffix_append_cases hG with hH | ⟨e', he', hedne, rfl⟩
              · obtain ⟨n, hn, h'⟩ := suffix_eq_drop hH
                subst h'
                have h21 : ((":0] m_axi_foo_".toList : Str) ++
                    ("WDATA".toList ++ ";\n".toList)).length = 21 := rfl
                rw [h21] at hn
                interval_cases n <;> rfl
              · obtain ⟨c, t', rfl⟩ := List.exists_cons_of_ne_nil hedne
                rw [List.cons_append]
                exact matchParamAt_none_of_head
                  (digit_ne_char (hd2 c (he'.subset (List.mem_cons_self _ _))) (by decide)) _
            · obtain ⟨n, hn, h'⟩ := suffix_eq_drop ho2
              subst h'
              have h8 : (("output [".toList : Str)).length = 8 := rfl
              rw [h8] at hn
              interval_cases n <;> first | rfl | exact absurd rfl hone2
          · obtain ⟨n, hn, h'⟩ := suffix_eq_drop hx'
            subst h'
            have h2 : ((";\n".toList : Str)).length = 2 := rfl
            rw [h2] at hn
            interval_cases n <;> rfl
        · obtain ⟨n, hn, h'⟩ := suffix_eq_drop hs'
          subst h'
          have h6 : (("ARADDR".toList : Str)).length = 6 := rfl
          rw [h6] at hn
          interval_cases n <;> rfl
      · obtain ⟨n, hn, h'⟩ := suffix_eq_drop hm'
        subst h'
        have h14 : ((":0] m_axi_foo_".toList : Str)).length = 14 := rfl
        rw [h14] at hn
        interval_cases n <;> rfl
    · obtain ⟨c, t', rfl⟩ := List.exists_cons_of_ne_nil hdne
      rw [List.cons_append]
      exact matchParamAt_none_of_head
        (digit_ne_char (hd1 c (hd'.subset (List.mem_cons_self _ _))) (by decide)) _
  · obtain ⟨n, hn, h'⟩ := suffix_eq_drop ho1
    subst h'
    have h8 : (("output [".toList : Str)).length = 8 := rfl
    rw [h8] at hn
    interval_cases n <;> first | rfl | exact absurd rfl hone1

theorem evalExpr_digits {ds : Str} (hne : ds ≠ []) (hdig : ∀ c ∈ ds, c.isDigit = true) :
    evalExpr ds = some ((digitsToNat ds : Int)) := by
  obtain ⟨c, t, rfl⟩ := List.exists_cons_of_ne_nil hne
  have hc := hdig c (List.mem_cons_self c t)
  have hskip : skipSp (c :: t) = c :: t := by
    simp [skipSp, List.dropWhile_cons, digit_not_space hc]
  have htake : (c :: t).takeWhile Char.isDigit = c :: t := takeWhile_all hdig
  have hnum : parseNumA (c :: t) = some ((digitsToNat (c :: t) : Int), []) := by
    simp [parseNumA, hskip, htake]
  unfold evalExpr parseE parseT
  rw [hnum]
  simp [parseTLoop, parseELoop, skipSp]

/-- Claim C4: a top RTL declaring exactly `output [31:0] m_axi_foo_ARADDR`
and `output [63:0] m_axi_foo_WDATA` yields exactly one AxiInterface named
`foo` with addrWidthBits 32 and dataWidthBits 64; and in general, for any
literal decimal high bounds in this two-line shape, the stored widths equal
the declared inclusive high bounds plus one. -/
theorem c4_interface_widths :
    parse_m_axi_interfaces c4Rtl =
        Except.ok [{ name := "foo".toList, data_width := 64, addr_width := 32 }] ∧
      ∀ d1 d2 : Str, canonDigits d1 → canonDigits d2 →
        parse_m_axi_interfaces (declLine "ARADDR".toList d1 ++ declLine "WDATA".toList d2) =
          Except.ok [{ name := "foo".toList, data_width := (digitsToNat d2 : Int) + 1,
                       addr_width := (digitsToNat d1 : Int) + 1 }] := by
  constructor
  · rfl
  · intro d1 d2 hcan1 hcan2
    obtain ⟨hne1, hd1, -⟩ := hcan1
    obtain ⟨hne2, hd2, -⟩ := hcan2
    unfold parse_m_axi_interfaces match_data name_to_addr_width match_addr param_table
    rw [findallAxi_c4_addr d1 d2 hd1 hd2, findallAxi_c4_data d1 d2 hd1 hd2,
      findallParam_c4 d1 d2 hd1 hd2]
    simp [buildAxiList, buildDict, insertOver, listLookup,
      evalExpr_digits hne2 hd2, evalExpr_digits hne1 hd1, substParams, Except.map]

/-- Witness for C4's general clause at the digit strings `31` and `63`. -/
theorem c4_interface_widths_witness :
    (canonDigits "31".toList ∧ canonDigits "63".toList) ∧
    parse_m_axi_interfaces (declLine "ARADDR".toList "31".toList ++
        declLine "WDATA".toList "63".toList) =
      Except.ok [{ name := "foo".toList, data_width := (digitsToNat "63".toList : Int) + 1,
                   addr_width := (digitsToNat "31".toList : Int) + 1 }] :=
  ⟨⟨by unfold canonDigits; decide, by unfold canonDigits; decide⟩,
    c4_interface_widths.2 "31".toList "63".toList (by unfold canonDigits; decide)
      (by unfold canonDigits; decide)⟩

/-! ## Claim C5: the parameter-value family -/

theorem dropWhile_all_append {α : Type} {p : α → Bool} {l₁ l₂ : List α}
    (h : ∀ a ∈ l₁, p a = true) : (l₁ ++ l₂).dropWhile p = l₂.dropWhile p := by
  rw [List.dropWhile_append, show List.dropWhile p l₁ = [] from
    List.dropWhile_eq_nil_iff.mpr h]
  rfl

theorem scanP_nil_fuel (f : Nat) : scanP f [] = [] := by
  cases f <;> rfl

theorem scanP_succ_match {s nm v rest : Str} (f : Nat)
    (h : matchParamAt s = some (nm, v, rest)) :
    scanP (f + 1) s = (nm, v) :: scanP f rest := by
  cases s with
  | nil =>
    rw [show matchParamAt [] = none from rfl] at h
    cases h
  | cons c cs => simp [scanP, h]

theorem scanP_succ_skip {s : Str} (f : Nat) (h : matchParamAt s = none) :
    scanP (f + 1) s = scanP f s.tail := by
  cases s with
  | nil => simp [scanP_nil_fuel]
  | cons c cs => simp [scanP, h]

theorem paramValLoop_succ (run2 after2 : Str) (j : Nat) :
    paramValLoop run2 after2 (j + 1) =
      match (run2.drop (j + 1) ++ after2).dropWhile isPySpace with
      | ';' :: rest => some (run2.take (j + 1), rest)
      | _ => paramValLoop run2 after2 j := rfl

theorem paramValLoop_c5 (c : Char) (t : Str) :
    paramValLoop ((c :: t) ++ [';']) ('\n' :: c5Tail) (t.length + 1 + 1) =
      some (c :: t, '\n' :: c5Tail) := by
  have h1 : paramValLoop ((c :: t) ++ [';']) ('\n' :: c5Tail) (t.length + 1 + 1) =
      paramValLoop ((c :: t) ++ [';']) ('\n' :: c5Tail) (t.length + 1) := by
    rw [paramValLoop_succ, List.drop_of_length_le (by simp)]
    rfl
  rw [h1, paramValLoop_succ,
    show t.length + 1 = ((c :: t : Str)).length from rfl,
    List.drop_left, List.take_left]
  rfl

theorem paramAfterName_c5 {c : Char} {t : Str} (hc : isPySpace c = false)
    (hnsp : ∀ a ∈ (c :: t : Str), (!isPySpace a) = true) :
    paramAfterName (' ' :: '=' :: ' ' :: ((c :: t) ++ (";\n".toList ++ c5Tail))) =
      some (c :: t, '\n' :: c5Tail) := by
  have e1 : paramAfterName (' ' :: '=' :: ' ' :: ((c :: t) ++ (";\n".toList ++ c5Tail))) =
      paramValLoop
        (((c :: t) ++ (";\n".toList ++ c5Tail)).dropWhile isPySpace |>.takeWhile
          fun a => !isPySpace a)
        (((c :: t) ++ (";\n".toList ++ c5Tail)).dropWhile isPySpace |>.dropWhile
          fun a => !isPySpace a)
        ((((c :: t) ++ (";\n".toList ++ c5Tail)).dropWhile isPySpace |>.takeWhile
          fun a => !isPySpace a)).length := rfl
  have hdw : ((c :: t) ++ (";\n".toList ++ c5Tail) : Str).dropWhile isPySpace =
      (c :: t) ++ (";\n".toList ++ c5Tail) := by
    rw [List.cons_append, List.dropWhile_cons, hc]
    rfl
  have htk : ((c :: t) ++ (";\n".toList ++ c5Tail) : Str).takeWhile (fun a => !isPySpace a) =
      (c :: t) ++ [';'] := by
    rw [List.takeWhile_append_of_pos hnsp]
    rfl
  have hdk : ((c :: t) ++ (";\n".toList ++ c5Tail) : Str).dropWhile (fun a => !isPySpace a) =
      '\n' :: c5Tail := by
    rw [dropWhile_all_append hnsp]
    rfl
  rw [e1, hdw, htk, hdk,
    show (((c :: t : Str)) ++ [';']).length = t.length + 1 + 1 from by
      rw [List.length_append]; rfl]
  exact paramValLoop_c5 c t

theorem matchParamAt_c5 {c : Char} {t : Str} (hc : isPySpace c = false)
    (hnsp : ∀ a ∈ (c :: t : Str), (!isPySpace a) = true) :
    matchParamAt ("parameter W = ".toList ++ ((c :: t) ++ (";\n".toList ++ c5Tail))) =
      some ("W".toList, c :: t, '\n' :: c5Tail) := by
  have e0 : matchParamAt ("parameter W = ".toList ++ ((c :: t) ++ (";\n".toList ++ c5Tail))) =
      paramNameLoop ['W'] (' ' :: '=' :: ' ' :: ((c :: t) ++ (";\n".toList ++ c5Tail))) 1 := rfl
  have e1 : paramNameLoop ['W'] (' ' :: '=' :: ' ' :: ((c :: t) ++ (";\n".toList ++ c5Tail))) 1 =
      match paramAfterName (' ' :: '=' :: ' ' :: ((c :: t) ++ (";\n".toList ++ c5Tail))) with
      | some (v, rest) => some (['W'], v, rest)
      | none =>
        paramNameLoop ['W'] (' ' :: '=' :: ' ' :: ((c :: t) ++ (";\n".toList ++ c5Tail))) 0 :=
    rfl
  rw [e0, e1, paramAfterName_c5 hc hnsp]
  rfl

theorem c5RtlOf_split (ds : Str) :
    c5RtlOf ds = "parameter W = ".toList ++ (ds ++ (";\n".toList ++ c5Tail)) := by
  simp [c5RtlOf, List.append_assoc]

theorem findallParam_c5of {ds : Str} (hne : ds ≠ [])
    (hdig : ∀ c ∈ ds, c.isDigit = true) :
    findallParam (c5RtlOf ds) = [("W".toList, ds)] := by
  obtain ⟨c, t, rfl⟩ := List.exists_cons_of_ne_nil hne
  have hc : isPySpace c = false := digit_not_space (hdig c (List.mem_cons_self c t))
  have hnsp : ∀ a ∈ (c :: t : Str), (!isPySpace a) = true := fun a ha => by
    rw [digit_not_space (hdig a ha)]
    rfl
  have hm : matchParamAt (c5RtlOf (c :: t)) = some ("W".toList, c :: t, '\n' :: c5Tail) := by
    rw [c5RtlOf_split]
    exact matchParamAt_c5 hc hnsp
  have h2le : 2 ≤ (c5RtlOf (c :: t)).length := by
    rw [c5RtlOf_split, List.length_append]
    have h14 : (("parameter W = ".toList : Str)).length = 14 := rfl
    rw [h14]
    omega
  obtain ⟨g, hg⟩ : ∃ g, (c5RtlOf (c :: t)).length = (g + 1) + 1 :=
    ⟨(c5RtlOf (c :: t)).length - 2, by omega⟩
  rw [findallParam, hg, scanP_succ_match (g + 1) hm,
    scanP_succ_skip g (matchParamAt_none_of_head (by decide) _),
    show (('\n' :: c5Tail : Str)).tail = c5Tail from rfl,
    scanP_nil_of_no_match g c5Tail ?_]
  intro u hu
  obtain ⟨n, hn, h'⟩ := suffix_eq_drop hu
  subst h'
  have h62 : ((c5Tail : Str)).length = 62 := rfl
  rw [h62] at hn
  interval_cases n <;> rfl

theorem axi_c5_prefix_nomatch (sig : Str) {ds : Str}
    (hdig : ∀ c ∈ ds, c.isDigit = true) :
    ∀ a', a' <:+ "parameter W = ".toList ++ ds ++ ";\n".toList → a' ≠ [] →
      matchAxiAt sig (a' ++ c5Tail) = none := by
  intro a' ha' hane
  simp only [List.append_assoc] at ha'
  rcases suffix_append_cases ha' with hB | ⟨p', hp', hpne, rfl⟩
  · rcases suffix_append_cases hB with hC | ⟨d', hd', hdne, rfl⟩
    · obtain ⟨n, hn, h'⟩ := suffix_eq_drop hC
      subst h'
      have h2 : ((";\n".toList : Str)).length = 2 := rfl
      rw [h2] at hn
      interval_cases n <;> first | rfl | exact absurd rfl hane
    · obtain ⟨c, t', rfl⟩ := List.exists_cons_of_ne_nil hdne
      rw [List.cons_append, List.cons_append]
      exact matchAxiAt_none_of_head
        (digit_ne_char (hdig c (hd'.subset (List.mem_cons_self _ _))) (by decide)) _
  · obtain ⟨n, hn, h'⟩ := suffix_eq_drop hp'
    subst h'
    have h14 : (("parameter W = ".toList : Str)).length = 14 := rfl
    rw [h14] at hn
    interval_cases n <;> first | rfl | exact absurd rfl hpne

theorem match_addr_c5of {ds : Str} (hdig : ∀ c ∈ ds, c.isDigit = true) :
    match_addr (c5RtlOf ds) = [("31".toList, "bar".toList)] := by
  rw [match_addr, c5RtlOf, findallAxi,
    scanA_append_nomatch _ _ _ (axi_c5_prefix_nomatch "ARADDR".toList hdig),
    List.length_append,
    show ("parameter W = ".toList ++ ds ++ ";\n".toList : Str).length + c5Tail.length -
        ("parameter W = ".toList ++ ds ++ ";\n".toList : Str).length = c5Tail.length
      from by omega,
    show ((c5Tail : Str)).length = 62 from rfl]
  rfl

theorem match_data_c5of {ds : Str} (hdig : ∀ c ∈ ds, c.isDigit = true) :
    match_data (c5RtlOf ds) = [("W".toList, "bar".toList)] := by
  rw [match_data, c5RtlOf, findallAxi,
    scanA_append_nomatch _ _ _ (axi_c5_prefix_nomatch "WDATA".toList hdig),
    List.length_append,
    show ("parameter W = ".toList ++ ds ++ ";\n".toList : Str).length + c5Tail.length -
        ("parameter W = ".toList ++ ds ++ ";\n".toList : Str).length = c5Tail.length
      from by omega,
    show ((c5Tail : Str)).length = 62 from rfl]
  rfl

/-- Claim C5: parameter names in a bus-width expression are textually
substituted by their declared literal values before the expression is
evaluated; in particular with `parameter W = 31;` and
`output [W:0] m_axi_bar_WDATA;` (plus a literal address-width declaration)
the resolved data width is 32 — and for every canonical literal value `ds`
of `W`, the substitution produces `ds` and the resolved data width is its
numeric value plus one. -/
theorem c5_parameter_substitution :
    (substParams (param_table c5Rtl) "W".toList = "31".toList ∧
      evalExpr (substParams (param_table c5Rtl) "W".toList) = some 31 ∧
      parse_m_axi_interfaces c5Rtl =
        Except.ok [{ name := "bar".toList, data_width := 32, addr_width := 32 }]) ∧
    ∀ ds : Str, canonDigits ds →
      substParams (param_table (c5RtlOf ds)) "W".toList = ds ∧
      parse_m_axi_interfaces (c5RtlOf ds) =
        Except.ok [{ name := "bar".toList, data_width := (digitsToNat ds : Int) + 1,
                     addr_width := 32 }] := by
  refine ⟨⟨rfl, rfl, rfl⟩, ?_⟩
  intro ds hcan
  obtain ⟨hne, hdig, -⟩ := hcan
  have htab : param_table (c5RtlOf ds) = [("W".toList, ds)] := by
    rw [param_table, findallParam_c5of hne hdig]
    rfl
  have hsubW : substParams [("W".toList, ds)] "W".toList = ds := by
    simp [substParams, replaceAll, replaceAllF, isPrefixOfL]
  constructor
  · rw [htab]
    exact hsubW
  · rw [show parse_m_axi_interfaces (c5RtlOf ds) =
        buildAxiList (match_data (c5RtlOf ds)) (name_to_addr_width (c5RtlOf ds))
          (param_table (c5RtlOf ds)) from rfl,
      match_data_c5of hdig, htab, name_to_addr_width, match_addr_c5of hdig]
    have hsub31 : substParams [("W".toList, ds)] "31".toList = "31".toList := rfl
    have he1 : evalExpr (substParams [(("W".toList : Str), ds)] "W".toList) =
        some ((digitsToNat ds : Int)) := by
      rw [hsubW]
      exact evalExpr_digits hne hdig
    have he2 : evalExpr (substParams [(("W".toList : Str), ds)] "31".toList) = some 31 := by
      rw [hsub31]
      rfl
    have he1' : evalExpr (substParams [(((['W'] : Str)), ds)] (['W'] : Str)) =
        some ((digitsToNat ds : Int)) := he1
    have he2' : evalExpr (substParams [(((['W'] : Str)), ds)] (['3', '1'] : Str)) = some 31 := he2
    simp [buildAxiList, buildDict, insertOver, listLookup, he1', he2', Except.map]

/-- Witness for C5's family clause at the literal `31`. -/
theorem c5_parameter_substitution_witness :
    canonDigits "31".toList ∧
      (substParams (param_table (c5RtlOf "31".toList)) "W".toList = "31".toList ∧
        parse_m_axi_interfaces (c5RtlOf "31".toList) =
          Except.ok [{ name := "bar".toList,
                       data_width := (digitsToNat "31".toList : Int) + 1,
                       addr_width := 32 }]) :=
  ⟨by unfold canonDigits; decide,
    c5_parameter_substitution.2 "31".toList (by unfold canonDigits; decide)⟩
